import Mathlib

/-!
Verification of the Player entity of the whispermud-core runtime
(src/unnamed/part_000, class `Player extends Character`).

The Player class itself is embedded from the source.  Collaborators that
live outside the provided sources (Character / EffectableEntity base,
QuestTracker, Room, CommandQueue, ItemFactory, AreaManager, RoomManager,
AccountManager, Logger) are modelled from the specification; each such
definition carries a doc comment starting with "Modelled from the spec:".

Fields of Player that no claim concerns (socket, extraPrompts and the
addPrompt / removePrompt / hasPrompt accessors, the inventory-max
defaulting from global configuration) are not modelled.
-/

set_option maxRecDepth 4000

namespace WhisperMUD

/-! ## 4.5 Prompt template interpolation (`Player.interpolatePrompt`) -/

/-- JavaScript-like values appearing in the prompt resolution dictionary
(`promptData` in the source): the attribute records and any extra data.
Numbers are modelled as integers (all values the code puts there are
attribute numbers). -/
inductive PVal where
  | undefined
  | null
  | num (n : Int)
  | str (s : String)
  | obj (fields : List (String × PVal))
deriving Repr, Inhabited

/-- Property lookup on a JS object represented as an association list:
`obj[key]`, yielding `undefined` when the key is absent. -/
def assocGet (fields : List (String × PVal)) (k : String) : PVal :=
  match fields with
  | [] => .undefined
  | (k2, v) :: rest => if k2 = k then v else assocGet rest k

/-- JS truthiness: `undefined`, `null`, `0` and `""` are falsy. -/
def PVal.falsy : PVal → Bool
  | .undefined => true
  | .null => true
  | .num n => n = 0
  | .str s => s = ""
  | .obj _ => false

/-- JS property access `v[key]`.  Non-objects have no (relevant) own
properties, so access on them yields `undefined`; prototype properties
are not modelled (no token of the form `[a-z.]+` used by the code
resolves one on the data the source builds). -/
def PVal.get : PVal → String → PVal
  | .obj fs, k => assocGet fs k
  | _, _ => .undefined

/-- Is the value `null` or `undefined` (the guard that triggers the
literal `invalid-token` substitution)? -/
def PVal.isNullish : PVal → Bool
  | .null => true
  | .undefined => true
  | _ => false

/-- JS `String(v)` for the values of the model. -/
def PVal.jsString : PVal → String
  | .undefined => "undefined"
  | .null => "null"
  | .num n => toString n
  | .str s => s
  | .obj _ => "[object Object]"

/-- `token.split('.').reduce((obj, index) => obj && obj[index], promptData)`:
walk the dictionary by successive key lookups; a falsy intermediate value
is returned unchanged by `&&` and so short-circuits the walk. -/
def resolveToken (data : PVal) (keys : List String) : PVal :=
  keys.foldl (fun acc k => if acc.falsy then acc else acc.get k) data

/-- A character matched by the token character class `[a-z\.]`. -/
def isTokenChar (c : Char) : Bool :=
  (97 ≤ c.toNat && c.toNat ≤ 122) || c = '.'

/-- Try to match the regex `%([a-z\.]+)%` at the start of the character
list, returning the captured token name.  Since `%` is not a token
character, the greedy run is forced and no backtracking case remains. -/
def tokenAt : List Char → Option (List Char)
  | '%' :: rest =>
    let run := rest.takeWhile isTokenChar
    match run, rest.drop run.length with
    | _ :: _, '%' :: _ => some run
    | _, _ => none
  | _ => none

/-- Leftmost match of `%([a-z\.]+)%` in the string, as
`promptStr.match(/%([a-z\.]+)%/)` finds it. -/
def findToken : List Char → Option (List Char)
  | [] => none
  | c :: rest =>
    match tokenAt (c :: rest) with
    | some t => some t
    | none => findToken rest

/-- `str.replace(pat, repl)` for a plain (non-empty) search string:
replace the first occurrence of `pat`.  The `$`-escape handling of JS
string replacement is not modelled (no value the code substitutes
contains `$`). -/
def replaceFirst : List Char → List Char → List Char → List Char
  | [], _, _ => []
  | c :: rest, pat, repl =>
    if (c :: rest).take pat.length = pat then repl ++ (c :: rest).drop pat.length
    else c :: replaceFirst rest pat repl

/-- `token.split('.')` on the captured token characters. -/
def splitDotAux : List Char → List Char → List String
  | [], acc => [String.mk acc.reverse]
  | '.' :: rest, acc => String.mk acc.reverse :: splitDotAux rest []
  | c :: rest, acc => splitDotAux rest (c :: acc)

/-- The `while (matches = promptStr.match(...))` loop of
`interpolatePrompt`.  The JS loop has no fuel and can diverge when a
substituted value reintroduces a token (the open question of spec 4.5);
the fuel only bounds that divergent case, every terminating run of the
source loop is reproduced exactly when given enough fuel. -/
def interpolateLoop (data : PVal) : Nat → List Char → List Char
  | 0, s => s
  | Nat.succ fuel, s =>
    match findToken s with
    | none => s
    | some tok =>
      let v := resolveToken data (splitDotAux tok [])
      let vs : List Char :=
        if v.isNullish then "invalid-token".data else (PVal.jsString v).data
      interpolateLoop data fuel (replaceFirst s ('%' :: tok ++ ['%']) vs)

/-- One tracked attribute of the entity, with the three numbers the
source reads off it. Modelled from the spec: the attribute store and the
`getAttribute` / `getMaxAttribute` / `getBaseAttribute` accessors live in
the EffectableEntity base class, outside the provided sources; the spec
says Effectable "owns attribute base/current/max computation". -/
structure AttrEntry where
  name : String
  current : Int
  maxVal : Int
  base : Int
deriving Repr, DecidableEq

/-- The `attributeData` object the source builds: one record
`{current, max, base}` per tracked attribute. -/
def attributeData (attrs : List AttrEntry) : List (String × PVal) :=
  attrs.map fun a =>
    (a.name, PVal.obj [("current", .num a.current), ("max", .num a.maxVal), ("base", .num a.base)])

/-- `Object.assign(attributeData, extraData)`: extra data wins on key
collision (lookup-equivalent association-list merge). -/
def objAssign (base extra : List (String × PVal)) : List (String × PVal) :=
  base.filter (fun kv => !(extra.any (fun kv2 => kv2.1 = kv.1))) ++ extra

/-- `Player.interpolatePrompt(promptStr, extraData)` (source lines 77-99),
parameterised by the tracked attributes of the player. -/
def interpolatePrompt (attrs : List AttrEntry) (promptStr : String)
    (extraData : List (String × PVal)) : String :=
  let data := PVal.obj (objAssign (attributeData attrs) extraData)
  String.mk (interpolateLoop data (promptStr.length + 1) promptStr.data)

/-! ## The Player data model -/

/-- A live account object.  Modelled from the spec: accounts are an
external collaborator looked up "by identifier"; `serialize` flattens an
account "to its name/identifier", so the name is the identifier. -/
structure Account where
  name : String
deriving Repr, DecidableEq

/-- The `account` field: `null`/`undefined`, a string identifier
(pre-hydration), or a live account reference. -/
inductive AccountField where
  | null
  | str (id : String)
  | acct (a : Account)
deriving Repr, DecidableEq

/-- The `room` field: `null`, a string identifier (pre-hydration), or a
live room reference.  Rooms are identified by their identifier string
(the room directory hands out one live object per identifier). -/
inductive RoomRef where
  | null
  | str (id : String)
  | ref (id : String)
deriving Repr, DecidableEq

/-- A serialized equipment slot descriptor (the legacy slot→descriptor
shape): the area and entity reference the item is created from, plus its
opaque serialized inner-inventory payload. -/
structure ItemDef where
  area : String
  entityReference : String
  inv : List String
deriving Repr, DecidableEq

/-- A live item.  Modelled from the spec: item internals are out of
scope; the item retains the data it was created and hydrated from, and
its `serialize` flattens back to the descriptor. -/
structure Item where
  area : String
  entityReference : String
  inv : List String
deriving Repr, DecidableEq

/-- `item.serialize()`.  Modelled from the spec: serialization flattens
a live item back to its descriptor (round-tripping "reproduces ...
equipped items per slot"). -/
def Item.serialize (i : Item) : ItemDef :=
  ⟨i.area, i.entityReference, i.inv⟩

/-- The `equipment` field: the legacy slot→descriptor plain object
(truthy even when empty), a live `Map` from slot to item, or a nullish
value (absent / `null`, falsy). -/
inductive EquipField where
  | legacy (defs : List (String × ItemDef))
  | map (m : List (String × Item))
  | nullish
deriving Repr, DecidableEq

/-- The quest tracker collaborator.  Modelled from the spec: it is
"seeded from `{active, completed}` snapshot data", its `hydrate`
resolves quest references without changing the sets, and its
`serialize` reproduces the active/completed sets. -/
structure QuestTracker where
  active : List String
  completed : List String
deriving Repr, DecidableEq

/-- The `quests` field of a snapshot. -/
structure QuestsData where
  active : List String
  completed : List String
deriving Repr, DecidableEq

/-- The live Player object (fields from the Player constructor plus the
Character/base fields the claims touch: name, room, equipment,
inventory, metadata, attributes and the two lifecycle flags).  The
command queue is modelled by its length (`cmdQueue`), which is the next
enqueue index. -/
structure Player where
  name : String
  account : AccountField
  experience : Int
  password : Option String
  prompt : String
  questTracker : QuestTracker
  role : Int
  room : RoomRef
  equipment : EquipField
  inventory : List String
  metadata : List (String × String)
  attributes : List AttrEntry
  cmdQueue : Nat
  hydrated : Bool
  pruned : Bool
deriving Repr, DecidableEq

/-- Constructor input (`data`), which doubles as the persisted snapshot
shape of spec section 6. -/
structure PlayerData where
  name : String
  account : AccountField
  experience : Option Int
  password : Option String
  prompt : Option String
  quests : Option QuestsData
  role : Option Int
  room : RoomRef
  equipment : EquipField
  inventory : List String
  metadata : List (String × String)
  attributes : List AttrEntry
deriving Repr, DecidableEq

/-- `PlayerRoles.PLAYER`, the default role.  Modelled from the spec: the
role is an opaque enum value; the default member is modelled as 0. -/
def PlayerRoles.PLAYER : Int := 0

/-- The Player constructor (source lines 25-47) on top of the modelled
Character/base construction: `data.account || null` (a falsy account,
e.g. the empty string, becomes null), `data.experience || 0`,
`data.prompt || '> '`, quest data defaulted via
`Object.assign({completed: [], active: []}, data.quests)`, a fresh empty
command queue, `data.role || PlayerRoles.PLAYER`.  The base class copies
name/room/equipment/inventory/metadata/attributes from `data`; the
lifecycle flags start unset.  The inventory-max defaulting from global
configuration (lines 43-46) is not modelled (no claim concerns it). -/
def Player.fromData (d : PlayerData) : Player where
  name := d.name
  account := match d.account with
    | .str id => if id = "" then .null else .str id
    | a => a
  experience := match d.experience with
    | some e => if e = 0 then 0 else e
    | none => 0
  password := d.password
  prompt := match d.prompt with
    | some p => if p = "" then "> " else p
    | none => "> "
  questTracker :=
    { active := ((d.quests.map QuestsData.active).getD [])
      completed := ((d.quests.map QuestsData.completed).getD []) }
  role := match d.role with
    | some r => if r = 0 then PlayerRoles.PLAYER else r
    | none => PlayerRoles.PLAYER
  room := d.room
  equipment := d.equipment
  inventory := d.inventory
  metadata := d.metadata
  attributes := d.attributes
  cmdQueue := 0
  hydrated := false
  pruned := false

/-! ## World state: room membership -/

/-- Set-insert on a membership list (JS `Set.add`: no duplicates). -/
def setAdd (x : String) (xs : List String) : List String :=
  if x ∈ xs then xs else xs ++ [x]

/-- Set-delete on a membership list (JS `Set.delete`). -/
def setDel (x : String) (xs : List String) : List String :=
  xs.filter (fun y => y ≠ x)

/-- The room collaborators' mutable state: each room's membership set
(player names).  Modelled from the spec: a Room is an external
collaborator with `addPlayer` / `removePlayer` mutating its membership
set and a plain (unguarded) event bus. -/
structure World where
  membership : String → List String

/-- `room.addPlayer(player)` on the room with the given identifier. -/
def World.addPlayer (w : World) (room pl : String) : World :=
  { membership := fun r => if r = room then setAdd pl (w.membership r) else w.membership r }

/-- `room.removePlayer(player)` on the room with the given identifier. -/
def World.removePlayer (w : World) (room pl : String) : World :=
  { membership := fun r => if r = room then setDel pl (w.membership r) else w.membership r }

/-! ## Events and actions -/

/-- An argument of a published notification. -/
inductive EvArg where
  | pid (name : String)
  | rid (id : String)
  | idx (n : Nat)
  | cb
  | nullArg
deriving Repr, DecidableEq

/-- One observable action of the Player code, in execution order: a
room-bus publication, a membership mutation, the `onMoved` callback
invocation, a publication on the player's own bus, the forward of a
publication to the quest tracker's bus, or an item's spawn emission. -/
inductive Action where
  | roomEmit (room : String) (event : String) (args : List EvArg)
  | removePlayer (room : String)
  | addPlayer (room : String)
  | onMoved
  | selfEmit (event : String) (args : List EvArg)
  | questEmit (event : String) (args : List EvArg)
  | itemSpawn (slot : String)
deriving Repr, DecidableEq

/-! ## Player.emit / save / queueCommand -/

/-- `Player.emit(event, ...args)` (source lines 62-70): suppressed
entirely when the entity is pruned or not yet hydrated; otherwise
publish on the player's own bus (`super.emit`) and then forward the
identical event to the quest tracker's bus. -/
def Player.emit (p : Player) (event : String) (args : List EvArg) : List Action :=
  if p.pruned || !p.hydrated then []
  else [.selfEmit event args, .questEmit event args]

/-- `Player.save(callback)` (source lines 165-171): a silent no-op
unless hydrated; otherwise emits a "save" event carrying the callback
(through the guarded `emit`). -/
def Player.save (p : Player) : List Action :=
  if !p.hydrated then [] else p.emit "save" [.cb]

/-- `Player.queueCommand(executable, lag)` (source lines 52-55):
enqueue on the command queue (modelled from the spec:
`enqueue(executable, lag) -> index`, appending to the FIFO and
returning the new entry's index), then `emit('commandQueued', index)`.
The JS method body has no return statement, so the returned value is
`undefined`, modelled as `none`. -/
def Player.queueCommand (p : Player) : Option Nat × Player × List Action :=
  let index := p.cmdQueue
  let p1 : Player := { p with cmdQueue := p.cmdQueue + 1 }
  (none, p1, p1.emit "commandQueued" [.idx index])

/-! ## Room transition protocol (`Player.moveTo`) -/

/-- The tail of `moveTo` after the leave phase (source lines 147-162):
assign `room = nextRoom`, `nextRoom.addPlayer(this)`, invoke `onMoved`
(the default no-op callback; its invocation is recorded as an action),
publish `playerEnter` on the next room with the previous room as
payload, then `this.emit('enterRoom', nextRoom)` through the guarded
player emit. -/
def Player.finishMove (p : Player) (w : World) (nextRoom : String) (prevArg : EvArg)
    (leaveActs : List Action) : Player × World × List Action :=
  let p1 : Player := { p with room := .ref nextRoom }
  let w1 := w.addPlayer nextRoom p.name
  (p1, w1,
    leaveActs ++
      [.addPlayer nextRoom, .onMoved, .roomEmit nextRoom "playerEnter" [.pid p.name, prevArg]] ++
      p1.emit "enterRoom" [.rid nextRoom])

/-- `Player.moveTo(nextRoom, onMoved)` (source lines 135-163).  When the
current room is a live room differing from `nextRoom`, publish
`playerLeave` on it (payload: the player and the destination) and then
remove the player from its membership.  A `room` field still holding a
string identifier has no `emit` method, so the call throws a TypeError
(the string is truthy and never identical to a room object). -/
def Player.moveTo (p : Player) (w : World) (nextRoom : String) :
    Except String (Player × World × List Action) :=
  match p.room with
  | .str s =>
    .error ("TypeError: this.room.emit is not a function (room is the string " ++ s ++ ")")
  | .null => .ok (p.finishMove w nextRoom .nullArg [])
  | .ref a =>
    if a = nextRoom then
      .ok (p.finishMove w nextRoom (.rid a) [])
    else
      .ok (p.finishMove (w.removePlayer a p.name) nextRoom (.rid a)
        [.roomEmit a "playerLeave" [.pid p.name, .rid nextRoom], .removePlayer a])

/-! ## Concrete fixtures used by witnesses and counterexamples -/

/-- A hydrated, non-pruned player occupying no room. -/
def basePlayer : Player where
  name := "alice"
  account := .acct ⟨"alice"⟩
  experience := 0
  password := none
  prompt := "> "
  questTracker := ⟨[], []⟩
  role := 0
  room := .null
  equipment := .map []
  inventory := []
  metadata := []
  attributes := []
  cmdQueue := 0
  hydrated := true
  pruned := false

/-- A hydrated, non-pruned player occupying room "A". -/
def moverAlice : Player := { basePlayer with room := RoomRef.ref "A" }

/-- A pruned player occupying room "A". -/
def prunedMover : Player := { basePlayer with room := RoomRef.ref "A", pruned := true }

/-- A world where only room "A" has the player as member. -/
def moverWorld : World := { membership := fun r => if r = "A" then ["alice"] else [] }

/-- A world with every membership set empty. -/
def emptyWorld : World := { membership := fun _ => [] }

/-- Projection: the actions performed by a completed `moveTo` call. -/
def moveActions (p : Player) (w : World) (nextRoom : String) : List Action :=
  match p.moveTo w nextRoom with
  | .ok x => x.2.2
  | .error _ => []

/-! ## Hydration and serialization -/

/-- The external directories and registries hydration consults.
Modelled from the spec: AccountManager / RoomManager / AreaManager are
directory collaborators looked up by identifier, and the placeholder
area exposes the well-known placeholder room as the fallback. -/
structure GameState where
  accounts : List String
  rooms : List String
  areas : List String
  placeholderRoom : String
deriving Repr

/-- One diagnostic written through `Logger.error`: the caught message of
a failed equipment-slot reconstruction (source line 205), or the
dangling-room diagnostic naming the player and the dangling room
identifier (source line 215). -/
inductive LogEntry where
  | eqErr (msg : String)
  | roomErr (player : String) (roomId : String)
deriving Repr, DecidableEq

/-- Is this log entry the dangling-room diagnostic? -/
def LogEntry.isRoomErr : LogEntry → Bool
  | .roomErr _ _ => true
  | _ => false

/-- One equipment slot's reconstruction (source lines 195-197):
`state.ItemFactory.create(state.AreaManager.getArea(itemDef.area),
itemDef.entityReference)` followed by inventory initialization and
item hydration.  Modelled from the spec: a descriptor whose area does
not resolve throws (the corrupt-entry example of the spec); a
resolvable descriptor reconstructs the item from its data. -/
def createItem (st : GameState) (d : ItemDef) : Except String Item :=
  if d.area ∈ st.areas then .ok ⟨d.area, d.entityReference, d.inv⟩
  else .error ("No area found: " ++ d.area)

/-- `Map.set(slot, item)` on the equipment association list
(`this.equip(newItem, slot)`, which stores the item under the slot). -/
def mapSet (m : List (String × Item)) (k : String) (v : Item) : List (String × Item) :=
  if m.any (fun kv => kv.1 = k) then m.map (fun kv => if kv.1 = k then (k, v) else kv)
  else m ++ [(k, v)]

/-- The legacy-equipment loop of `hydrate` (source lines 192-207): for
each slot in order, try to reconstruct the item, register and equip it
and emit its spawn event; an exception is caught, logged, and the
remaining slots are still processed. -/
def hydrateEquipAux (st : GameState) (acc : List (String × Item)) :
    List (String × ItemDef) → List (String × Item) × List LogEntry × List Action
  | [] => (acc, [], [])
  | (slot, d) :: rest =>
    match createItem st d with
    | .ok item =>
      let res := hydrateEquipAux st (mapSet acc slot item) rest
      (res.1, res.2.1, .itemSpawn slot :: res.2.2)
    | .error e =>
      let res := hydrateEquipAux st acc rest
      (res.1, .eqErr e :: res.2.1, res.2.2)

/-- The slots of a legacy equipment object whose reconstruction
succeeds, with their reconstructed items, in order. -/
def okEquip (st : GameState) (defs : List (String × ItemDef)) : List (String × Item) :=
  defs.filterMap fun sd =>
    match createItem st sd.2 with
    | .ok item => some (sd.1, item)
    | .error _ => none

/-- The diagnostics of a legacy equipment reconstruction, in order. -/
def equipErrs (st : GameState) (defs : List (String × ItemDef)) : List LogEntry :=
  defs.filterMap fun sd =>
    match createItem st sd.2 with
    | .ok _ => none
    | .error e => some (.eqErr e)

/-- The spawn emissions of a legacy equipment reconstruction. -/
def spawnActs (st : GameState) (defs : List (String × ItemDef)) : List Action :=
  defs.filterMap fun sd =>
    match createItem st sd.2 with
    | .ok _ => some (.itemSpawn sd.1)
    | .error _ => none

/-- `Player.hydrate(state)` (source lines 173-222).  The base/Character
hydration, the quest tracker hydration and the inventory hydration are
modelled from the spec as resolving internal scaffolding of their
collaborators without changing the fields of this model.  Then, in
source order: resolve a string `account` through the account directory
(an unresolvable identifier leaves the nullish lookup result in the
field — the open question of spec 7a); rebuild a legacy equipment
object slot by slot with per-slot failure isolation (a non-legacy
equipment field is replaced by an empty map); resolve a string `room`
through the room directory, falling back to the placeholder room with a
logged diagnostic, and place the player through `moveTo`.  Finally the
entity is marked hydrated (modelled from the spec: step 7 of 4.2,
"Mark state HYDRATED", lives in the base hydration outside the provided
sources). -/
def Player.hydrate (p : Player) (st : GameState) (w : World) :
    Except String (Player × World × List LogEntry × List Action) :=
  let p1 : Player :=
    { p with account := match p.account with
        | .str id => if id ∈ st.accounts then .acct ⟨id⟩ else .null
        | a => a }
  let eq := match p1.equipment with
    | .legacy defs => hydrateEquipAux st [] defs
    | _ => ([], [], [])
  let p2 : Player := { p1 with equipment := .map eq.1 }
  match p2.room with
  | .str rid =>
    if rid ∈ st.rooms then
      let p3 : Player := { p2 with room := .ref rid }
      (p3.moveTo w rid).map fun res =>
        ({ res.1 with hydrated := true }, res.2.1, eq.2.1, eq.2.2 ++ res.2.2)
    else
      let r := st.placeholderRoom
      let p3 : Player := { p2 with room := .ref r }
      (p3.moveTo w r).map fun res =>
        ({ res.1 with hydrated := true }, res.2.1, eq.2.1 ++ [.roomErr p.name rid], eq.2.2 ++ res.2.2)
  | _ => .ok ({ p2 with hydrated := true }, w, eq.2.1, eq.2.2)

/-- `questTracker.serialize()`.  Modelled from the spec: reproduces the
active/completed sets. -/
def QuestTracker.serialize (q : QuestTracker) : QuestsData :=
  ⟨q.active, q.completed⟩

/-- The snapshot produced by `Player.serialize`, combining the modelled
base serialization (name, room flattened to its identifier) with the
fields the Player method adds.  `Option` encodes the JS
`undefined`/`null` the code can put in a field. -/
structure OutSnapshot where
  name : String
  room : Option String
  account : Option String
  experience : Int
  inventory : List String
  metadata : List (String × String)
  password : Option String
  prompt : String
  quests : QuestsData
  role : Int
  equipment : Option (List (String × ItemDef))
deriving Repr, DecidableEq

/-- `Player.serialize()` (source lines 224-247).  The base/Character
serialization is modelled from the spec ("live references flattened to
identifiers"): it contributes the name and the room identifier (no
identifier when the room field holds no live reference).  The method
then reads `this.account.name` unconditionally: on a null account this
throws a TypeError (the error result); on a string account it yields
`undefined` (strings have no `name` property).  Map equipment is
serialized slot by slot; a non-Map equipment field serializes to
null. -/
def Player.serialize (p : Player) : Except String OutSnapshot :=
  let accountName : Except String (Option String) :=
    match p.account with
    | .null => .error "TypeError: Cannot read properties of null (reading name)"
    | .str _ => .ok none
    | .acct a => .ok (some a.name)
  accountName.map fun an =>
    { name := p.name
      room := match p.room with
        | .ref id => some id
        | _ => none
      account := an
      experience := p.experience
      inventory := p.inventory
      metadata := p.metadata
      password := p.password
      prompt := p.prompt
      quests := p.questTracker.serialize
      role := p.role
      equipment := match p.equipment with
        | .map m => some (m.map fun kv => (kv.1, kv.2.serialize))
        | _ => none }

/-- Construct from a snapshot, hydrate, then serialize, propagating a
thrown error from either phase. -/
def roundTrip (d : PlayerData) (st : GameState) (w : World) : Except String OutSnapshot :=
  match Player.hydrate (Player.fromData d) st w with
  | .ok res => res.1.serialize
  | .error e => .error e

/-- Projection: the result of a completed hydrate call. -/
def hydrateResult (p : Player) (st : GameState) (w : World) :
    Player × World × List LogEntry × List Action :=
  match p.hydrate st w with
  | .ok res => res
  | .error _ => (p, w, [], [])

/-- Constructor data with no account, for the C10 witness. -/
def noAccountData : PlayerData where
  name := "bob"
  account := .null
  experience := none
  password := none
  prompt := none
  quests := none
  role := none
  room := .str "limbo:room1"
  equipment := .nullish
  inventory := []
  metadata := []
  attributes := []


/-- A resolvable equipment descriptor (its area exists in `eqState`). -/
def goodDef : ItemDef := ⟨"midgard", "midgard:sword", []⟩

/-- A corrupt equipment descriptor referencing a non-existent area. -/
def badDef : ItemDef := ⟨"void", "void:axe", []⟩

/-- A game state knowing only the area of `goodDef`. -/
def eqState : GameState :=
  { accounts := [], rooms := [], areas := ["midgard"], placeholderRoom := "placeholder" }

/-- A cold player with one resolvable and one corrupt equipment slot. -/
def eqPlayer : Player :=
  { basePlayer with
      equipment := EquipField.legacy [("wield", goodDef), ("head", badDef)]
      hydrated := false }

/-- A cold player saved to a room that no longer exists. -/
def strayPlayer : Player :=
  { basePlayer with room := RoomRef.str "lost:room", hydrated := false }

/-- A game state with no rooms at all. -/
def c7State : GameState :=
  { accounts := [], rooms := [], areas := [], placeholderRoom := "placeholder" }

/-- A snapshot whose room identifier resolves and whose (empty legacy)
equipment resolves, but whose account identifier dangles. -/
def danglingAccountData : PlayerData where
  name := "carol"
  account := .str "ghost"
  experience := some 5
  password := some "pw"
  prompt := none
  quests := some ⟨["q1"], ["q0"]⟩
  role := none
  room := .str "town:square"
  equipment := .legacy []
  inventory := []
  metadata := []
  attributes := []

/-- A game state resolving the room of `danglingAccountData` but not
its account. -/
def cexState : GameState :=
  { accounts := [], rooms := ["town:square"], areas := [], placeholderRoom := "placeholder" }

/-- A snapshot whose room, account and equipment identifiers all
resolve in `okState`. -/
def okData : PlayerData where
  name := "erin"
  account := .str "erin"
  experience := some 3
  password := some "pw"
  prompt := none
  quests := some ⟨["q2"], ["q9"]⟩
  role := none
  room := .str "town:square"
  equipment := .legacy [("wield", goodDef)]
  inventory := []
  metadata := []
  attributes := []

/-- A game state resolving every identifier of `okData`. -/
def okState : GameState :=
  { accounts := ["erin"], rooms := ["town:square"], areas := ["midgard"],
    placeholderRoom := "placeholder" }

/-! ## Membership-set lemmas -/

theorem mem_setAdd_self (x : String) (xs : List String) : x ∈ setAdd x xs := by
  unfold setAdd
  split
  · assumption
  · exact List.mem_append_right _ (List.mem_singleton.mpr rfl)

theorem mem_setAdd_iff (x y : String) (xs : List String) :
    y ∈ setAdd x xs ↔ y = x ∨ y ∈ xs := by
  unfold setAdd
  split
  · rename_i h
    constructor
    · exact Or.inr
    · rintro (rfl | h2)
      · exact h
      · exact h2
  · simp [List.mem_append, or_comm]

theorem mem_setDel_iff (x y : String) (xs : List String) :
    y ∈ setDel x xs ↔ y ∈ xs ∧ y ≠ x := by
  simp [setDel, List.mem_filter]

theorem not_mem_setDel_self (x : String) (xs : List String) : x ∉ setDel x xs := by
  intro h
  exact ((mem_setDel_iff x x xs).mp h).2 rfl

/-! ## Claim theorems: events, saving, command queue, movement -/

/-- C4: on a player whose pruned flag is set or whose hydrated flag is
not set, `emit` invokes zero subscribers (no own-bus publication and no
quest-tracker relay) and `save` is a silent no-op publishing no save
event; both are total functions, so neither raises an error. -/
theorem emit_save_guard (p : Player) (event : String) (args : List EvArg)
    (h : p.pruned = true ∨ p.hydrated = false) :
    p.emit event args = [] ∧ p.save = [] := by
  constructor
  · rcases h with h | h <;> simp [Player.emit, h]
  · rcases h with h | h
    · by_cases hh : p.hydrated <;> simp [Player.save, Player.emit, h, hh]
    · simp [Player.save, h]

/-- Witness for C4 at a concrete pruned player. -/
theorem emit_save_guard_witness :
    prunedMover.emit "levelUp" [] = [] ∧ prunedMover.save = [] :=
  emit_save_guard prunedMover "levelUp" [] (Or.inl rfl)

/-- C5: on a hydrated, non-pruned player, `emit` publishes the event on
the player's own bus first and then forwards it, with identical event
name and identical arguments, to the quest tracker's bus. -/
theorem emit_relays_to_quest_tracker (p : Player) (event : String) (args : List EvArg)
    (hh : p.hydrated = true) (hp : p.pruned = false) :
    p.emit event args = [.selfEmit event args, .questEmit event args] := by
  simp [Player.emit, hh, hp]

/-- Witness for C5 at a concrete hydrated player. -/
theorem emit_relays_to_quest_tracker_witness :
    basePlayer.emit "kill" [.pid "goblin"] =
      [.selfEmit "kill" [.pid "goblin"], .questEmit "kill" [.pid "goblin"]] :=
  emit_relays_to_quest_tracker basePlayer "kill" [.pid "goblin"] rfl rfl

/-- C9 counterexample: on a concrete hydrated, non-pruned player with an
empty queue, `queueCommand` enqueues at index 0 and publishes the
`commandQueued` notification carrying 0, but its JS body has no return
statement, so it returns `undefined` rather than the enqueue index. -/
theorem queueCommand_returns_undefined :
    (basePlayer.queueCommand).1 = none ∧
    (basePlayer.queueCommand).1 ≠ some basePlayer.cmdQueue ∧
    (basePlayer.queueCommand).2.2 =
      [.selfEmit "commandQueued" [.idx 0], .questEmit "commandQueued" [.idx 0]] :=
  ⟨rfl, by decide, by decide⟩

/-- C9 (amended): on a hydrated, non-pruned player, `queueCommand`
appends to the command queue and publishes a `commandQueued`
notification carrying exactly the index produced by the enqueue
operation; the method itself returns `undefined`, not the index. -/
theorem queueCommand_emits_index (p : Player) (hh : p.hydrated = true) (hp : p.pruned = false) :
    p.queueCommand =
      (none, { p with cmdQueue := p.cmdQueue + 1 },
        [.selfEmit "commandQueued" [.idx p.cmdQueue],
         .questEmit "commandQueued" [.idx p.cmdQueue]]) := by
  simp [Player.queueCommand, Player.emit, hh, hp]

/-- Witness for the amended C9 at a concrete player. -/
theorem queueCommand_emits_index_witness :
    basePlayer.queueCommand =
      (none, { basePlayer with cmdQueue := 1 },
        [.selfEmit "commandQueued" [.idx 0], .questEmit "commandQueued" [.idx 0]]) :=
  queueCommand_emits_index basePlayer rfl rfl

/-- C2 counterexample: a pruned player occupying room "A", moved to room
"B", triggers the leave/enter room notifications but its own
`enterRoom` publication is suppressed by the emit guard, so the claim
that moveTo always publishes all three notifications fails. -/
theorem moveTo_pruned_counterexample :
    moveActions prunedMover moverWorld "B" =
      [.roomEmit "A" "playerLeave" [.pid "alice", .rid "B"],
       .removePlayer "A", .addPlayer "B", .onMoved,
       .roomEmit "B" "playerEnter" [.pid "alice", .rid "A"]] ∧
    Action.selfEmit "enterRoom" [.rid "B"] ∉ moveActions prunedMover moverWorld "B" := by
  constructor <;> decide

/-- C2 (amended): on a hydrated, non-pruned player occupying room A,
with B a distinct room, `moveTo(B)` performs in this exact order:
publish `playerLeave` on A (payload: the player and B), remove the
player from A's membership, assign room = B and add the player to B's
membership, invoke the `onMoved` callback, publish `playerEnter` on B
(payload: the player and A), and publish `enterRoom` on the player
(payload: B, relayed to the quest tracker); afterward A's membership
excludes the player and B's membership includes it, and each
notification was published exactly once (the action list is exact). -/
theorem moveTo_protocol (p : Player) (w : World) (A B : String)
    (hroom : p.room = .ref A) (hAB : A ≠ B)
    (hh : p.hydrated = true) (hp : p.pruned = false) :
    p.moveTo w B =
      .ok ({ p with room := .ref B },
        (w.removePlayer A p.name).addPlayer B p.name,
        [.roomEmit A "playerLeave" [.pid p.name, .rid B],
         .removePlayer A,
         .addPlayer B,
         .onMoved,
         .roomEmit B "playerEnter" [.pid p.name, .rid A],
         .selfEmit "enterRoom" [.rid B],
         .questEmit "enterRoom" [.rid B]]) ∧
    p.name ∉ ((w.removePlayer A p.name).addPlayer B p.name).membership A ∧
    p.name ∈ ((w.removePlayer A p.name).addPlayer B p.name).membership B := by
  refine ⟨?_, ?_, ?_⟩
  · simp [Player.moveTo, hroom, hAB, Player.finishMove, Player.emit, hh, hp]
  · simp [World.addPlayer, World.removePlayer, hAB]
    exact fun h => absurd ((mem_setDel_iff _ _ _).mp h).2 (by simp)
  · simp [World.addPlayer]
    exact mem_setAdd_self _ _

/-- Witness for the amended C2 at a concrete player and world. -/
theorem moveTo_protocol_witness :
    moverAlice.moveTo moverWorld "B" =
      .ok ({ moverAlice with room := .ref "B" },
        (moverWorld.removePlayer "A" "alice").addPlayer "B" "alice",
        [.roomEmit "A" "playerLeave" [.pid "alice", .rid "B"],
         .removePlayer "A",
         .addPlayer "B",
         .onMoved,
         .roomEmit "B" "playerEnter" [.pid "alice", .rid "A"],
         .selfEmit "enterRoom" [.rid "B"],
         .questEmit "enterRoom" [.rid "B"]]) ∧
    "alice" ∉ ((moverWorld.removePlayer "A" "alice").addPlayer "B" "alice").membership "A" ∧
    "alice" ∈ ((moverWorld.removePlayer "A" "alice").addPlayer "B" "alice").membership "B" :=
  moveTo_protocol moverAlice moverWorld "A" "B" rfl (by decide) rfl rfl

/-- C3: whenever a `moveTo(R)` call completes (the room field is a live
reference or null, never a raw string) on a player whose membership is
consistent with its room field (the player is a member only of the room
its field designates), afterward exactly one room's membership set
contains the player, and that room is R — including when the player
previously occupied no room and when it already occupied R. -/
theorem moveTo_membership_invariant (p : Player) (w : World) (R : String)
    (hroom : ∀ s, p.room ≠ .str s)
    (hinv : ∀ r, p.name ∈ w.membership r → p.room = .ref r) :
    ∃ p1 w1 acts, p.moveTo w R = .ok (p1, w1, acts) ∧
      ∀ r, (p.name ∈ w1.membership r ↔ r = R) := by
  cases hr : p.room with
  | str s => exact absurd hr (hroom s)
  | null =>
    refine ⟨{ p with room := .ref R }, w.addPlayer R p.name,
      [.addPlayer R, .onMoved, .roomEmit R "playerEnter" [.pid p.name, .nullArg]] ++
        Player.emit { p with room := .ref R } "enterRoom" [.rid R],
      by simp [Player.moveTo, hr, Player.finishMove], ?_⟩
    intro r
    by_cases hrR : r = R
    · subst hrR
      simp [World.addPlayer, mem_setAdd_self]
    · simp [World.addPlayer, hrR]
      intro hmem
      have := hinv r hmem
      rw [hr] at this
      exact RoomRef.noConfusion this
  | ref a =>
    by_cases haR : a = R
    · subst haR
      refine ⟨{ p with room := .ref a }, w.addPlayer a p.name,
        [.addPlayer a, .onMoved, .roomEmit a "playerEnter" [.pid p.name, .rid a]] ++
          Player.emit { p with room := .ref a } "enterRoom" [.rid a],
        by simp [Player.moveTo, hr, Player.finishMove], ?_⟩
      intro r
      by_cases hrR : r = a
      · subst hrR
        simp [World.addPlayer, mem_setAdd_self]
      · simp [World.addPlayer, hrR]
        intro hmem
        have := hinv r hmem
        rw [hr] at this
        exact hrR (RoomRef.ref.inj this).symm
    · refine ⟨{ p with room := .ref R }, (w.removePlayer a p.name).addPlayer R p.name,
        [.roomEmit a "playerLeave" [.pid p.name, .rid R], .removePlayer a] ++
          [.addPlayer R, .onMoved, .roomEmit R "playerEnter" [.pid p.name, .rid a]] ++
          Player.emit { p with room := .ref R } "enterRoom" [.rid R],
        by simp [Player.moveTo, hr, haR, Player.finishMove], ?_⟩
      intro r
      by_cases hrR : r = R
      · subst hrR
        simp [World.addPlayer, mem_setAdd_self]
      · simp [World.addPlayer, World.removePlayer, hrR]
        by_cases hra : r = a
        · subst hra
          simp
          exact not_mem_setDel_self _ _
        · simp [hra]
          intro hmem
          have := hinv r hmem
          rw [hr] at this
          exact hra (RoomRef.ref.inj this).symm

/-- Witness for C3: a player occupying no room, moved into room "R". -/
theorem moveTo_membership_invariant_witness :
    ∃ p1 w1 acts, basePlayer.moveTo emptyWorld "R" = .ok (p1, w1, acts) ∧
      ∀ r, ("alice" ∈ w1.membership r ↔ r = "R") :=
  moveTo_membership_invariant basePlayer emptyWorld "R"
    (fun s h => by simp [basePlayer] at h)
    (fun r h => by simp [emptyWorld] at h)

/-! ## Equipment reconstruction lemmas -/

theorem mapSet_append (m : List (String × Item)) (k : String) (v : Item)
    (h : k ∉ m.map Prod.fst) : mapSet m k v = m ++ [(k, v)] := by
  unfold mapSet
  rw [if_neg]
  intro hany
  rcases List.any_eq_true.mp hany with ⟨kv, hkv, he⟩
  exact h (by simpa [← of_decide_eq_true he] using List.mem_map_of_mem Prod.fst hkv)

theorem hydrateEquipAux_eq (st : GameState) (defs : List (String × ItemDef)) :
    ∀ acc, (defs.map Prod.fst).Nodup →
    (∀ k, k ∈ defs.map Prod.fst → k ∉ acc.map Prod.fst) →
    hydrateEquipAux st acc defs =
      (acc ++ okEquip st defs, equipErrs st defs, spawnActs st defs) := by
  induction defs with
  | nil =>
    intro acc _ _
    simp [hydrateEquipAux, okEquip, equipErrs, spawnActs]
  | cons hd rest ih =>
    obtain ⟨slot, d⟩ := hd
    intro acc hnd hdisj
    rw [List.map_cons] at hnd
    have hnd2 := List.nodup_cons.mp hnd
    cases hc : createItem st d with
    | ok item =>
      have hmap : mapSet acc slot item = acc ++ [(slot, item)] :=
        mapSet_append acc slot item (hdisj slot (by simp))
      have ih2 := ih (acc ++ [(slot, item)]) hnd2.2 ?_
      · simp [hydrateEquipAux, hc, hmap, ih2, okEquip, equipErrs, spawnActs,
          List.filterMap_cons]
      · intro k hk
        have h1 : k ∉ acc.map Prod.fst := hdisj k (by simp [hk])
        have h2 : k ≠ slot := fun he => hnd2.1 (he ▸ hk)
        simp [h1, h2]
    | error e =>
      have ih2 := ih acc hnd2.2 ?_
      · simp [hydrateEquipAux, hc, ih2, okEquip, equipErrs, spawnActs,
          List.filterMap_cons]
      · intro k hk
        exact hdisj k (by simp [hk])

theorem okEquip_all_resolve (st : GameState) (defs : List (String × ItemDef))
    (h : ∀ sd ∈ defs, sd.2.area ∈ st.areas) :
    okEquip st defs =
      defs.map fun sd => (sd.1, Item.mk sd.2.area sd.2.entityReference sd.2.inv) := by
  induction defs with
  | nil => rfl
  | cons hd rest ih =>
    have h2 : createItem st hd.2 = .ok ⟨hd.2.area, hd.2.entityReference, hd.2.inv⟩ := by
      simp [createItem, h hd (by simp)]
    simp only [okEquip, List.filterMap_cons, h2, List.map_cons]
    exact congrArg _ (ih fun sd hsd => h sd (by simp [hsd]))

theorem equipErrs_no_roomErr (st : GameState) (defs : List (String × ItemDef)) :
    ∀ e ∈ equipErrs st defs, e.isRoomErr = false := by
  induction defs with
  | nil => intro e he; simp [equipErrs] at he
  | cons hd rest ih =>
    intro e he
    simp only [equipErrs, List.filterMap_cons] at he
    cases hc : createItem st hd.2 with
    | ok item =>
      rw [hc] at he
      exact ih e he
    | error msg =>
      rw [hc] at he
      rcases List.mem_cons.mp he with rfl | he2
      · rfl
      · exact ih e he2

theorem hydrateEquipAux_log (st : GameState) (defs : List (String × ItemDef)) :
    ∀ acc, (hydrateEquipAux st acc defs).2.1 = equipErrs st defs := by
  induction defs with
  | nil => intro acc; simp [hydrateEquipAux, equipErrs]
  | cons hd rest ih =>
    intro acc
    obtain ⟨slot, d⟩ := hd
    cases hc : createItem st d with
    | ok item => simp [hydrateEquipAux, hc, ih, equipErrs, List.filterMap_cons]
    | error e => simp [hydrateEquipAux, hc, ih, equipErrs, List.filterMap_cons]

theorem hydrateEquipAux_acts (st : GameState) (defs : List (String × ItemDef)) :
    ∀ acc, (hydrateEquipAux st acc defs).2.2 = spawnActs st defs := by
  induction defs with
  | nil => intro acc; simp [hydrateEquipAux, spawnActs]
  | cons hd rest ih =>
    intro acc
    obtain ⟨slot, d⟩ := hd
    cases hc : createItem st d with
    | ok item => simp [hydrateEquipAux, hc, ih, spawnActs, List.filterMap_cons]
    | error e => simp [hydrateEquipAux, hc, ih, spawnActs, List.filterMap_cons]

/-- Hydration never aborts: every execution path of `hydrate` completes
(the only throwing step, `moveTo`, is always reached with a freshly
assigned live room reference). -/
theorem hydrate_ok (p : Player) (st : GameState) (w : World) :
    p.hydrate st w = .ok (hydrateResult p st w) := by
  unfold hydrateResult Player.hydrate
  cases hr : p.room with
  | str rid =>
    by_cases hin : rid ∈ st.rooms <;>
      simp [hr, hin, Player.moveTo, Player.finishMove, Except.map]
  | null => simp [hr]
  | ref a => simp [hr]

/-! ## Serialization claim theorems -/

/-- C10: on a player whose account field is null (as constructed from
input data lacking an account), `serialize()` throws when it
unconditionally reads `this.account.name`, rather than returning a
snapshot; a resolved non-null account is an unstated precondition of
serialize. -/
theorem serialize_null_account_throws (d : PlayerData) (h : d.account = .null) :
    (Player.fromData d).serialize =
      .error "TypeError: Cannot read properties of null (reading name)" := by
  simp [Player.serialize, Player.fromData, h, Except.map]

/-- Witness for C10 at a concrete constructed player. -/
theorem serialize_null_account_throws_witness :
    (Player.fromData noAccountData).serialize =
      .error "TypeError: Cannot read properties of null (reading name)" :=
  serialize_null_account_throws noAccountData rfl

/-- C8: `interpolatePrompt("%hp.current% / %hp.max%", {})` on a player
whose hp attribute has current 5 and max 10 returns `"5 / 10"`, and
`interpolatePrompt("%unknown.path%", {})` on a player with nothing
resolving `unknown.path` returns `"invalid-token"`. -/
theorem interpolatePrompt_examples :
    interpolatePrompt [⟨"hp", 5, 10, 10⟩] "%hp.current% / %hp.max%" [] = "5 / 10" ∧
    interpolatePrompt [] "%unknown.path%" [] = "invalid-token" :=
  ⟨by decide, by decide⟩

/-- C6: when the equipment field is a legacy slot-to-descriptor object,
an exception thrown while reconstructing any one slot's item is caught
and logged, every remaining slot is still processed, and the overall
hydration is not aborted: the entity reaches the hydrated state with
every resolvable slot equipped with its reconstructed item and every
failing slot logged. -/
theorem hydrate_equipment_isolation (p : Player) (st : GameState) (w : World)
    (defs : List (String × ItemDef))
    (heq : p.equipment = .legacy defs)
    (hnd : (defs.map Prod.fst).Nodup) :
    p.hydrate st w = .ok (hydrateResult p st w) ∧
    (hydrateResult p st w).1.hydrated = true ∧
    (hydrateResult p st w).1.equipment = .map (okEquip st defs) ∧
    (∀ sd ∈ defs, sd.2.area ∈ st.areas →
      (sd.1, Item.mk sd.2.area sd.2.entityReference sd.2.inv) ∈ okEquip st defs) ∧
    (∀ sd ∈ defs, sd.2.area ∉ st.areas →
      LogEntry.eqErr ("No area found: " ++ sd.2.area) ∈ (hydrateResult p st w).2.2.1) := by
  have hfold := hydrateEquipAux_eq st defs [] hnd (fun k _ => by simp)
  rw [List.nil_append] at hfold
  refine ⟨hydrate_ok p st w, ?_, ?_, ?_, ?_⟩
  · unfold hydrateResult Player.hydrate
    cases hr : p.room with
    | str rid =>
      by_cases hin : rid ∈ st.rooms <;>
        simp [hr, hin, Player.moveTo, Player.finishMove, Except.map]
    | null => simp [hr]
    | ref a => simp [hr]
  · unfold hydrateResult Player.hydrate
    cases hr : p.room with
    | str rid =>
      by_cases hin : rid ∈ st.rooms <;>
        simp [hr, hin, heq, hfold, Player.moveTo, Player.finishMove, Except.map]
    | null => simp [hr, heq, hfold]
    | ref a => simp [hr, heq, hfold]
  · intro sd hsd harea
    refine List.mem_filterMap.mpr ⟨sd, hsd, ?_⟩
    simp [createItem, harea]
  · intro sd hsd harea
    have hcre : createItem st sd.2 = .error ("No area found: " ++ sd.2.area) := by
      simp [createItem, harea]
    have hmem : LogEntry.eqErr ("No area found: " ++ sd.2.area) ∈ equipErrs st defs :=
      List.mem_filterMap.mpr ⟨sd, hsd, by simp [hcre]⟩
    unfold hydrateResult Player.hydrate
    cases hr : p.room with
    | str rid =>
      by_cases hin : rid ∈ st.rooms <;>
        simp [hr, hin, heq, hydrateEquipAux_log, Player.moveTo, Player.finishMove,
          Except.map, hmem]
    | null => simp [hr, heq, hydrateEquipAux_log, hmem]
    | ref a => simp [hr, heq, hydrateEquipAux_log, hmem]

/-- Witness for C6: the corrupt second slot is logged while the first
slot is still equipped, and hydration completes hydrated. -/
theorem hydrate_equipment_isolation_witness :
    eqPlayer.hydrate eqState emptyWorld = .ok (hydrateResult eqPlayer eqState emptyWorld) ∧
    (hydrateResult eqPlayer eqState emptyWorld).1.hydrated = true ∧
    (hydrateResult eqPlayer eqState emptyWorld).1.equipment =
      .map (okEquip eqState [("wield", goodDef), ("head", badDef)]) ∧
    (∀ sd ∈ [("wield", goodDef), ("head", badDef)], sd.2.area ∈ eqState.areas →
      (sd.1, Item.mk sd.2.area sd.2.entityReference sd.2.inv) ∈
        okEquip eqState [("wield", goodDef), ("head", badDef)]) ∧
    (∀ sd ∈ [("wield", goodDef), ("head", badDef)], sd.2.area ∉ eqState.areas →
      LogEntry.eqErr ("No area found: " ++ sd.2.area) ∈
        (hydrateResult eqPlayer eqState emptyWorld).2.2.1) :=
  hydrate_equipment_isolation eqPlayer eqState emptyWorld
    [("wield", goodDef), ("head", badDef)] rfl (by decide)

/-- C7: hydrating with a room identifier the room directory cannot
resolve logs exactly one dangling-room diagnostic naming the player and
the identifier, places the player in the placeholder room through the
room transition protocol (the placeholder membership gains the player,
and the membership mutation and the playerEnter publication appear
among the performed actions), and hydration still completes with the
entity hydrated. -/
theorem hydrate_dangling_room (p : Player) (st : GameState) (w : World) (rid : String)
    (hroom : p.room = .str rid) (hnores : rid ∉ st.rooms) :
    p.hydrate st w = .ok (hydrateResult p st w) ∧
    ((hydrateResult p st w).2.2.1).filter LogEntry.isRoomErr = [.roomErr p.name rid] ∧
    (hydrateResult p st w).1.room = .ref st.placeholderRoom ∧
    (hydrateResult p st w).1.hydrated = true ∧
    p.name ∈ ((hydrateResult p st w).2.1).membership st.placeholderRoom ∧
    Action.addPlayer st.placeholderRoom ∈ (hydrateResult p st w).2.2.2 ∧
    Action.roomEmit st.placeholderRoom "playerEnter" [.pid p.name, .rid st.placeholderRoom]
      ∈ (hydrateResult p st w).2.2.2 := by
  have hnil : ∀ (l : List LogEntry), (∀ e ∈ l, e.isRoomErr = false) →
      l.filter LogEntry.isRoomErr = [] := by
    intro l h
    apply List.filter_eq_nil_iff.mpr
    intro a ha
    simp [h a ha]
  refine ⟨hydrate_ok p st w, ?_, ?_, ?_, ?_, ?_, ?_⟩
  · unfold hydrateResult Player.hydrate
    cases he : p.equipment with
    | legacy defs =>
      simp [hroom, hnores, he, hydrateEquipAux_log, Player.moveTo, Player.finishMove,
        Except.map, List.filter_append, hnil _ (equipErrs_no_roomErr st defs),
        LogEntry.isRoomErr]
    | map m =>
      simp [hroom, hnores, he, Player.moveTo, Player.finishMove, Except.map,
        List.filter_append, LogEntry.isRoomErr]
    | nullish =>
      simp [hroom, hnores, he, Player.moveTo, Player.finishMove, Except.map,
        List.filter_append, LogEntry.isRoomErr]
  · unfold hydrateResult Player.hydrate
    simp [hroom, hnores, Player.moveTo, Player.finishMove, Except.map]
  · unfold hydrateResult Player.hydrate
    simp [hroom, hnores, Player.moveTo, Player.finishMove, Except.map]
  · unfold hydrateResult Player.hydrate
    simp [hroom, hnores, Player.moveTo, Player.finishMove, Except.map,
      World.addPlayer, mem_setAdd_self]
  · unfold hydrateResult Player.hydrate
    simp [hroom, hnores, Player.moveTo, Player.finishMove, Except.map, List.mem_append]
  · unfold hydrateResult Player.hydrate
    simp [hroom, hnores, Player.moveTo, Player.finishMove, Except.map, List.mem_append]

/-- Witness for C7 at a concrete player and empty room directory. -/
theorem hydrate_dangling_room_witness :
    strayPlayer.hydrate c7State emptyWorld =
      .ok (hydrateResult strayPlayer c7State emptyWorld) ∧
    ((hydrateResult strayPlayer c7State emptyWorld).2.2.1).filter LogEntry.isRoomErr =
      [.roomErr "alice" "lost:room"] ∧
    (hydrateResult strayPlayer c7State emptyWorld).1.room = .ref "placeholder" ∧
    (hydrateResult strayPlayer c7State emptyWorld).1.hydrated = true ∧
    "alice" ∈ ((hydrateResult strayPlayer c7State emptyWorld).2.1).membership "placeholder" ∧
    Action.addPlayer "placeholder" ∈ (hydrateResult strayPlayer c7State emptyWorld).2.2.2 ∧
    Action.roomEmit "placeholder" "playerEnter" [.pid "alice", .rid "placeholder"]
      ∈ (hydrateResult strayPlayer c7State emptyWorld).2.2.2 :=
  hydrate_dangling_room strayPlayer c7State emptyWorld "lost:room" rfl (by decide)

theorem serialize_okEquip (st : GameState) (defs : List (String × ItemDef))
    (hdefs : ∀ sd ∈ defs, sd.2.area ∈ st.areas) :
    (okEquip st defs).map (fun kv => (kv.1, kv.2.serialize)) = defs := by
  induction defs with
  | nil => rfl
  | cons hd rest ih =>
    have h2 : createItem st hd.2 = .ok ⟨hd.2.area, hd.2.entityReference, hd.2.inv⟩ := by
      simp [createItem, hdefs hd (by simp)]
    have hcons : okEquip st (hd :: rest) =
        (hd.1, ⟨hd.2.area, hd.2.entityReference, hd.2.inv⟩) :: okEquip st rest := by
      simp only [okEquip, List.filterMap_cons, h2]
    rw [hcons, List.map_cons, ih (fun sd hsd => hdefs sd (by simp [hsd]))]
    rfl

/-- C1 counterexample: `danglingAccountData` is a valid snapshot in the
sense of the claim — its room identifier and its (empty legacy)
equipment resolve in `cexState` — yet the round trip yields no snapshot
at all: hydration leaves the unresolvable account nullish and serialize
then throws reading `account.name`. -/
theorem roundTrip_dangling_account_counterexample :
    roundTrip danglingAccountData cexState emptyWorld =
      .error "TypeError: Cannot read properties of null (reading name)" := rfl

/-- C1 (amended): for every snapshot whose room identifier, equipment
area identifiers and account identifier all resolve (with distinct
equipment slots, as JS object keys are, and a non-empty account
identifier, as a falsy one is nulled by the constructor), serializing
the player obtained by hydrating the snapshot yields a snapshot with
the same room identifier, the same occupied equipment slots with
equivalent item content, and the same quest active/completed sets. -/
theorem roundTrip_preserves (d : PlayerData) (st : GameState) (w : World)
    (rid aid : String) (defs : List (String × ItemDef)) (qd : QuestsData)
    (hroom : d.room = .str rid) (hrid : rid ∈ st.rooms)
    (hacc : d.account = .str aid) (haid : aid ≠ "") (haccres : aid ∈ st.accounts)
    (heq : d.equipment = .legacy defs)
    (hdefs : ∀ sd ∈ defs, sd.2.area ∈ st.areas)
    (hnd : (defs.map Prod.fst).Nodup)
    (hq : d.quests = some qd) :
    ∃ out, roundTrip d st w = .ok out ∧
      out.room = some rid ∧
      out.equipment = some defs ∧
      out.quests = qd := by
  have hfold := hydrateEquipAux_eq st defs [] hnd (fun k _ => by simp)
  rw [List.nil_append] at hfold
  have hp0a : (Player.fromData d).account = .str aid := by
    simp [Player.fromData, hacc, haid]
  have hp0r : (Player.fromData d).room = .str rid := by
    simp [Player.fromData, hroom]
  have hp0e : (Player.fromData d).equipment = .legacy defs := by
    simp [Player.fromData, heq]
  have hp0q : (Player.fromData d).questTracker = ⟨qd.active, qd.completed⟩ := by
    simp [Player.fromData, hq]
  have hrt : roundTrip d st w = ((hydrateResult (Player.fromData d) st w).1).serialize := by
    unfold roundTrip
    rw [hydrate_ok]
  have hPacc : (hydrateResult (Player.fromData d) st w).1.account = .acct ⟨aid⟩ := by
    unfold hydrateResult Player.hydrate
    simp [hp0r, hrid, hp0a, haccres, Player.moveTo, Player.finishMove, Except.map]
  have hProom : (hydrateResult (Player.fromData d) st w).1.room = .ref rid := by
    unfold hydrateResult Player.hydrate
    simp [hp0r, hrid, Player.moveTo, Player.finishMove, Except.map]
  have hPeq : (hydrateResult (Player.fromData d) st w).1.equipment = .map (okEquip st defs) := by
    unfold hydrateResult Player.hydrate
    simp [hp0r, hrid, hp0e, hfold, Player.moveTo, Player.finishMove, Except.map]
  have hPq : (hydrateResult (Player.fromData d) st w).1.questTracker =
      ⟨qd.active, qd.completed⟩ := by
    unfold hydrateResult Player.hydrate
    simp [hp0r, hrid, hp0q, Player.moveTo, Player.finishMove, Except.map]
  have hqe : (QuestTracker.mk qd.active qd.completed).serialize = qd := rfl
  have hser : ((hydrateResult (Player.fromData d) st w).1).serialize =
      .ok { name := (hydrateResult (Player.fromData d) st w).1.name
            room := some rid
            account := some aid
            experience := (hydrateResult (Player.fromData d) st w).1.experience
            inventory := (hydrateResult (Player.fromData d) st w).1.inventory
            metadata := (hydrateResult (Player.fromData d) st w).1.metadata
            password := (hydrateResult (Player.fromData d) st w).1.password
            prompt := (hydrateResult (Player.fromData d) st w).1.prompt
            quests := qd
            role := (hydrateResult (Player.fromData d) st w).1.role
            equipment := some defs } := by
    simp [Player.serialize, hPacc, hProom, hPeq, hPq, hqe, Except.map,
      serialize_okEquip st defs hdefs]
  rw [hrt, hser]
  exact ⟨_, rfl, rfl, rfl, rfl⟩

/-- Witness for the amended C1: every identifier of `okData` resolves
in `okState`, and the round trip reproduces room, equipment and quest
sets. -/
theorem roundTrip_preserves_witness :
    ∃ out, roundTrip okData okState emptyWorld = .ok out ∧
      out.room = some "town:square" ∧
      out.equipment = some [("wield", goodDef)] ∧
      out.quests = ⟨["q2"], ["q9"]⟩ :=
  roundTrip_preserves okData okState emptyWorld "town:square" "erin" [("wield", goodDef)]
    ⟨["q2"], ["q9"]⟩ rfl (by decide) rfl (by decide) (by decide) rfl
    (by decide) (by decide) rfl

end WhisperMUD
